import Mathlib

set_option maxRecDepth 2000

attribute [local semireducible] Rat.mul Rat.add Rat.inv Rat.sub Rat.ofScientific

/-!
Verification development for the CMP2 repository (checkMaxPrefixes.py and
oldScript.py): a shallow embedding of the scripts' core logic — the headroom
calculator `AddHeadroom`, the per-peer configuration extraction, the
reconciliation classifier `findMismatch`, and the change-statement generator
`generateSetCommands` — together with theorems settling the specification
claims.

Python's arithmetic `(6 - len(str(prefixcount))) / 10 + 1` and
`int(prefixcount) * multiplier` is carried out on IEEE-754 binary64 floats.
We model each float operation exactly, at the level of values: a finite
binary64 value is a rational number, and every arithmetic operation is the
exact rational operation followed by rounding to 53 significant bits with
round-to-nearest, ties-to-even.  No value in any claim comes near the
overflow or subnormal range of binary64, so normalised rounding is the whole
semantics.  This model is executable, so concrete runs of the scripts'
functions are settled by `decide`.
-/

/-- Number of decimal digits of a natural number, i.e. `len(str(n))` in
Python (`0` has one digit).  Implemented with an explicit fuel argument so
that the kernel can evaluate it; `digitLenAux fuel n` is correct whenever
`n ≤ fuel`. -/
def digitLenAux : Nat → Nat → Nat
  | 0, _ => 1
  | fuel+1, n => if n < 10 then 1 else digitLenAux fuel (n / 10) + 1

/-- Number of decimal digits of `n`: the value of Python's
`len(str(n))` for a non-negative integer `n`. -/
def digitLen (n : Nat) : Nat := digitLenAux n n

/-- Floor of the base-2 logarithm (fuel-driven); `log2floorAux fuel n` is
correct whenever `n ≤ fuel`. -/
def log2floorAux : Nat → Nat → Nat
  | 0, _ => 0
  | fuel+1, n => if n < 2 then 0 else log2floorAux fuel (n / 2) + 1

/-- Floor of the base-2 logarithm of a positive natural number. -/
def log2floor (n : Nat) : Nat := log2floorAux n n

/-- Ceiling of the base-2 logarithm (fuel-driven); `clog2Aux fuel n` is
correct whenever `n ≤ fuel`. -/
def clog2Aux : Nat → Nat → Nat
  | 0, _ => 0
  | fuel+1, n => if n ≤ 1 then 0 else clog2Aux fuel ((n + 1) / 2) + 1

/-- Ceiling of the base-2 logarithm of a positive natural number. -/
def clog2 (n : Nat) : Nat := clog2Aux n n

/-- Binade exponent of a positive rational: `qexp q = ⌊log₂ q⌋`, so that
`2 ^ qexp q ≤ q < 2 ^ (qexp q + 1)`.  Only used for `0 < q`. -/
def qexp (q : ℚ) : ℤ :=
  if 1 ≤ q then (log2floor ⌊q⌋₊ : ℤ) else -(clog2 ⌈q⁻¹⌉₊ : ℤ)

/-- Round a rational to the nearest integer, ties to even — the rounding of
the IEEE-754 default rounding direction. -/
def roundHalfEven (q : ℚ) : ℤ :=
  let f := ⌊q⌋
  let r := q - (f : ℚ)
  if r < 1/2 then f
  else if 1/2 < r then f + 1
  else if f % 2 = 0 then f else f + 1

/-- Multiply a rational by `2 ^ e` (for `e : ℤ`), computed with the
kernel-accelerated natural-number power so that concrete instances reduce
fast. -/
def scale (q : ℚ) (e : ℤ) : ℚ :=
  if 0 ≤ e then q * ((2 ^ e.toNat : ℕ) : ℚ) else q / ((2 ^ (-e).toNat : ℕ) : ℚ)

/-- Round a positive rational to 53 significant binary digits,
round-to-nearest ties-to-even: the value computed by binary64 arithmetic on
positive mid-range values. -/
def roundPos (q : ℚ) : ℚ :=
  let e : ℤ := qexp q - 52
  scale (roundHalfEven (scale q (-e)) : ℚ) e

/-- Round any rational to binary64 precision (53 significant bits,
round-to-nearest ties-to-even).  IEEE rounding is symmetric in sign. -/
def roundQ (q : ℚ) : ℚ :=
  if 0 < q then roundPos q else if q < 0 then -roundPos (-q) else 0

/-- Python float division of two exactly-representable operands: the
correctly rounded exact quotient. -/
def pyDiv (a b : ℚ) : ℚ := roundQ (a / b)

/-- Python float addition: the correctly rounded exact sum. -/
def pyAdd (a b : ℚ) : ℚ := roundQ (a + b)

/-- Python float multiplication: the correctly rounded exact product. -/
def pyMul (a b : ℚ) : ℚ := roundQ (a * b)

/-- Conversion of a Python int to a float (`PyLong_AsDouble`), which rounds
to the nearest binary64 value. -/
def pyFloat (n : Nat) : ℚ := roundQ (n : ℚ)

/-- Model of `AddHeadroom(prefixcount)` (checkMaxPrefixes.py lines 132–149;
identical in oldScript.py lines 104–121):

    multiplier = (6 - len(str(prefixcount))) / 10 + 1
    GWMax = math.ceil(int(prefixcount) * multiplier)
    return GWMax, multiplier

`(6 - len(str(n))) / 10` is Python int true-division producing a float;
`+ 1` and the product with the int are float operations; `math.ceil` of a
float is its exact mathematical ceiling, as a Python int.  `multiplierOf d`
is the multiplier computed for a `d`-digit count. -/
def multiplierOf (d : Nat) : ℚ := pyAdd (pyDiv ((6 : ℚ) - (d : ℚ)) 10) 1

/-- Model of `AddHeadroom(prefixcount)`: the returned
`(GWMax, multiplier)` pair, with `GWMax = math.ceil(int(prefixcount) * multiplier)`. -/
def AddHeadroom (pfxcount : Nat) : ℤ × ℚ :=
  let multiplier := multiplierOf (digitLen pfxcount)
  let GWMax := ⌈pyMul (pyFloat pfxcount) multiplier⌉
  (GWMax, multiplier)

/-- Decimal value of a digit-character list (most significant first). -/
def decValAux : List Char → Nat → Nat
  | [], acc => acc
  | c :: cs, acc => decValAux cs (acc * 10 + (c.toNat - 48))

/-- Model of Python `int(s)` as applied in the scripts: every string it is
applied to is a non-negative decimal numeral taken from the device's JSON
configuration (peer-as values and prefix-limit maxima), so its value is the
decimal value of its digits.  A non-numeral would raise `ValueError` in
Python; such strings never occur in the data this model is evaluated on. -/
def pyInt (s : String) : ℤ := (decValAux s.data 0 : ℕ)

/-- One address-family block of a BGP group, with the configured
prefix-limit maximum as the raw decimal string found at
`family[0][kw][0]['unicast'][0]['prefix-limit'][0]['maximum'][0]['data']`.
A group carries at most one family block in the source data (both scripts
read only the first family key of the dictionary). -/
inductive Family where
  | inet (maxPfx : String)
  | inet6 (maxPfx : String)
deriving DecidableEq

/-- One entry of `bgpconfig[...]['bgp'][0]['group']`: the group's display
name (`peer['name']['data']`), its peer AS as the raw decimal string
(`peer['peer-as'][0]['data']`), and the optional family block (`none` when
the group has no `family` key and is skipped by both scripts). -/
structure BgpGroup where
  name : String
  peerAS : String
  family : Option Family
deriving DecidableEq

namespace CheckMaxPrefixes

/-- The inner dictionary of checkMaxPrefixes.py's `masterdict` (one per
ASN).  Every key that a pipeline stage may add is an `Option` field;
`none` models the key being absent from the Python dict. -/
structure PeerEntry where
  v4groupname : Option String := none
  v6groupname : Option String := none
  v4configmax : Option String := none
  v6configmax : Option String := none
  pdbmax4 : Option Nat := none
  pdbmax6 : Option Nat := none
  multiplierv4 : Option ℚ := none
  multiplierv6 : Option ℚ := none
  headroomv4 : Option ℤ := none
  headroomv6 : Option ℤ := none
  v4status : Option String := none
  v6status : Option String := none
deriving DecidableEq

/-- `masterdict`: a Python dict keyed by the ASN string, modelled as an
association list in insertion order with distinct keys. -/
abbrev Masterdict := List (String × PeerEntry)

/-- `defaultdict(dict)` update: mutate the entry under `key` if present,
else append a fresh entry (Python dicts keep insertion order). -/
def dictUpdate (md : Masterdict) (key : String) (f : PeerEntry → PeerEntry) :
    Masterdict :=
  match md with
  | [] => [(key, f {})]
  | (k, e) :: rest =>
    if k = key then (k, f e) :: rest else (k, e) :: dictUpdate rest key f

/-- Model of `ConfiguredPeers(bgpconfig)` (checkMaxPrefixes.py lines
104–129): walk the group list; skip groups without a family block; for an
`inet` group record `v4groupname` and `v4configmax` under the ASN key, for
an `inet6` group record `v6groupname` and `v6configmax`. -/
def ConfiguredPeers (peerList : List BgpGroup) : Masterdict :=
  peerList.foldl
    (fun md peer =>
      match peer.family with
      | none => md
      | some (Family.inet m) =>
        dictUpdate md peer.peerAS
          (fun e => { e with v4groupname := some peer.name, v4configmax := some m })
      | some (Family.inet6 m) =>
        dictUpdate md peer.peerAS
          (fun e => { e with v6groupname := some peer.name, v6configmax := some m }))
    []

/-- Model of `GetPeeringDBData(masterdict)` (checkMaxPrefixes.py lines
152–173).  `registry a = (info_prefixes4, info_prefixes6)` abstracts the
PeeringDB response for ASN `a`.  For every ASN of the dictionary — in
dictionary (insertion) order — both families' reported counts, headroom
values and multipliers are written into the entry unconditionally. -/
def GetPeeringDBData (registry : String → Nat × Nat) (md : Masterdict) :
    Masterdict :=
  md.map
    (fun p =>
      let pdbmax4 := (registry p.1).1
      let pdbmax6 := (registry p.1).2
      (p.1,
        { p.2 with
          pdbmax4 := some pdbmax4
          headroomv4 := some (AddHeadroom pdbmax4).1
          multiplierv4 := some (AddHeadroom pdbmax4).2
          pdbmax6 := some pdbmax6
          headroomv6 := some (AddHeadroom pdbmax6).1
          multiplierv6 := some (AddHeadroom pdbmax6).2 }))

/-- The status string computed by `findMismatch` (checkMaxPrefixes.py lines
191–205) for one configured family: compare `int(configmax)` with the
stored headroom value. -/
def statusOf (cfg hr : ℤ) : String :=
  if cfg = hr then "MATCH"
  else if cfg < hr then "MISMATCH - RECONFIGURE"
  else "MISMATCH - EXCEPTION"

/-- Per-entry body of `findMismatch`: set `v4status` when `v4configmax` is
present (reading `headroomv4`), then `v6status` when `v6configmax` is
present (reading `headroomv6`). -/
def setStatuses (e : PeerEntry) : PeerEntry :=
  let e1 :=
    match e.v4configmax with
    | none => e
    | some c => { e with v4status := some (statusOf (pyInt c) (e.headroomv4.getD 0)) }
  match e1.v6configmax with
  | none => e1
  | some c => { e1 with v6status := some (statusOf (pyInt c) (e1.headroomv6.getD 0)) }

/-- Model of `findMismatch(masterdict)` (checkMaxPrefixes.py lines
176–206): update every entry's status fields in place. -/
def findMismatch (md : Masterdict) : Masterdict :=
  md.map (fun p => (p.1, setStatuses p.2))

/-- The v4 branch of `generateSetCommands` (checkMaxPrefixes.py lines
283–292) for one entry: if `v4configmax` is present and `v4status` is
`'MISMATCH - RECONFIGURE'`, emit the maximum statement (value
`headroomv4`) and the teardown-80 statement for the v4 group. -/
def entryV4Commands (e : PeerEntry) : List String :=
  match e.v4configmax with
  | none => []
  | some _ =>
    if e.v4status = some "MISMATCH - RECONFIGURE" then
      let groupname := e.v4groupname.getD ""
      let newpfxlimit := e.headroomv4.getD 0
      ["set protocols bgp group " ++ groupname ++
         " family inet unicast prefix-limit maximum " ++ toString newpfxlimit,
       "set protocols bgp group " ++ groupname ++
         " family inet unicast prefix-limit teardown 80"]
    else []

/-- The v6 branch of `generateSetCommands` (checkMaxPrefixes.py lines
293–302) for one entry.  Line 296 of the source reads
`masterdict[entry]['headroomv4']` — the v4 key — for the new v6 prefix
limit, so the model's `newpfxlimit` is `headroomv4`, not `headroomv6`. -/
def entryV6Commands (e : PeerEntry) : List String :=
  match e.v6configmax with
  | none => []
  | some _ =>
    if e.v6status = some "MISMATCH - RECONFIGURE" then
      let groupname := e.v6groupname.getD ""
      let newpfxlimit := e.headroomv4.getD 0
      ["set protocols bgp group " ++ groupname ++
         " family inet6 unicast prefix-limit maximum " ++ toString newpfxlimit,
       "set protocols bgp group " ++ groupname ++
         " family inet6 unicast prefix-limit teardown 80"]
    else []

/-- Model of `generateSetCommands(masterdict)` (checkMaxPrefixes.py lines
270–311): the two ordered command sequences (`v4commands`, `v6commands`)
accumulated over the dictionary in insertion order; each is written to its
file only when non-empty. -/
def generateSetCommands (md : Masterdict) : List String × List String :=
  (md.flatMap (fun p => entryV4Commands p.2),
   md.flatMap (fun p => entryV6Commands p.2))

deriving instance DecidableEq for Except

/-- Subscripting a Python `str` with a string key, as `entry['v4status']`
does in `createTable` (checkMaxPrefixes.py lines 230, 235, 246, 251, where
`entry` ranges over the keys of `masterdict`): always raises
`TypeError: string indices must be integers`. -/
def pyStrGetItem (_s _k : String) : Except String String :=
  Except.error "TypeError"

/-- Rendering of one v4 row of the ad hoc table (columns ASN, current
config, PeeringDB count, multiplier, new max, status). -/
def rowV4 (a : String) (e : PeerEntry) : String :=
  a ++ " | " ++ e.v4configmax.getD "" ++ " | " ++ toString (e.pdbmax4.getD 0) ++
    " | " ++ toString (e.multiplierv4.getD 0) ++ " | " ++
    toString (e.headroomv4.getD 0) ++ " | " ++ e.v4status.getD ""

/-- Rendering of one v4 row of the ad hoc exception table. -/
def exRowV4 (a : String) (e : PeerEntry) : String :=
  a ++ " | " ++ e.v4configmax.getD "" ++ " | " ++ toString (e.pdbmax4.getD 0) ++
    " | " ++ toString (e.multiplierv4.getD 0) ++ " | " ++
    toString (e.headroomv4.getD 0)

/-- Rendering of one v6 row of the ad hoc table. -/
def rowV6 (a : String) (e : PeerEntry) : String :=
  a ++ " | " ++ e.v6configmax.getD "" ++ " | " ++ toString (e.pdbmax6.getD 0) ++
    " | " ++ toString (e.multiplierv6.getD 0) ++ " | " ++
    toString (e.headroomv6.getD 0) ++ " | " ++ e.v6status.getD ""

/-- Rendering of one v6 row of the ad hoc exception table. -/
def exRowV6 (a : String) (e : PeerEntry) : String :=
  a ++ " | " ++ e.v6configmax.getD "" ++ " | " ++ toString (e.pdbmax6.getD 0) ++
    " | " ++ toString (e.multiplierv6.getD 0) ++ " | " ++
    toString (e.headroomv6.getD 0)

/-- The v4 loop of `createTable` (checkMaxPrefixes.py lines 223–238):
accumulates (main-table rows, exception rows, exceptionExists flag).
With suppression on, the `elif` branches evaluate `entry['v4status']`
where `entry` is the ASN *string* key — a `TypeError` that aborts the
loop. -/
def v4Rows (md : Masterdict) (suppress : Bool) :
    Except String (List String × List String × Bool) :=
  match md with
  | [] => Except.ok ([], [], false)
  | (a, e) :: rest =>
    match e.v4configmax with
    | none => v4Rows rest suppress
    | some _ =>
      if !suppress then
        (v4Rows rest suppress).map (fun r => (rowV4 a e :: r.1, r.2.1, r.2.2))
      else
        (pyStrGetItem a "v4status").bind (fun s =>
          if s = "YES - reconfig" then
            (v4Rows rest suppress).map (fun r => (rowV4 a e :: r.1, r.2.1, r.2.2))
          else if s = "YES - exception" then
            (v4Rows rest suppress).map (fun r => (r.1, exRowV4 a e :: r.2.1, true))
          else v4Rows rest suppress)

/-- The v6 loop of `createTable` (checkMaxPrefixes.py lines 239–254),
analogous to the v4 loop. -/
def v6Rows (md : Masterdict) (suppress : Bool) :
    Except String (List String × List String × Bool) :=
  match md with
  | [] => Except.ok ([], [], false)
  | (a, e) :: rest =>
    match e.v6configmax with
    | none => v6Rows rest suppress
    | some _ =>
      if !suppress then
        (v6Rows rest suppress).map (fun r => (rowV6 a e :: r.1, r.2.1, r.2.2))
      else
        (pyStrGetItem a "v6status").bind (fun s =>
          if s = "YES - reconfig" then
            (v6Rows rest suppress).map (fun r => (rowV6 a e :: r.1, r.2.1, r.2.2))
          else if s = "YES - exception" then
            (v6Rows rest suppress).map (fun r => (r.1, exRowV6 a e :: r.2.1, true))
          else v6Rows rest suppress)

/-- Model of `createTable(masterdict, suppress)` (checkMaxPrefixes.py lines
209–267).  The returned list is the sequence of lines printed to STDOUT
(headers, table rows, and — when an exception row was collected — the
exception banner and tables).  A `TypeError` raised in either loop aborts
the call before anything is printed, which `Except.error` models. -/
def createTable (md : Masterdict) (suppress : Bool) :
    Except String (List String) :=
  (v4Rows md suppress).bind (fun r4 =>
    (v6Rows md suppress).map (fun r6 =>
      ["v4 results"] ++ r4.1 ++ ["v6 results"] ++ r6.1 ++
        (if r4.2.2 || r6.2.2 then
          ["The following networks are advertising more prefixes than listed in PeeringDB.",
           "We have manually configured the router to the following values."] ++
            r4.2.1 ++ r6.2.1
         else [])))

end CheckMaxPrefixes

namespace OldScript

/-- Python dict update-or-insert for the int-keyed dicts of oldScript.py
(`extracted4.update({peerAS: maxv4})` and friends): replace the value if
the key is present, else append, keeping insertion order. -/
def dictInsert : List (ℤ × ℤ) → ℤ → ℤ → List (ℤ × ℤ)
  | [], k, v => [(k, v)]
  | (k0, v0) :: rest, k, v =>
    if k0 = k then (k0, v) :: rest else (k0, v0) :: dictInsert rest k v

/-- Model of `ConfiguredPeers(bgpconfig)` (oldScript.py lines 59–82):
extract two dicts keyed by `int(peer-as)` holding the configured v4 and v6
prefix-limit maxima (parsed with `int`). -/
def ConfiguredPeers (peerList : List BgpGroup) :
    List (ℤ × ℤ) × List (ℤ × ℤ) :=
  peerList.foldl
    (fun acc peer =>
      match peer.family with
      | none => acc
      | some (Family.inet m) =>
        (dictInsert acc.1 (pyInt peer.peerAS) (pyInt m), acc.2)
      | some (Family.inet6 m) =>
        (acc.1, dictInsert acc.2 (pyInt peer.peerAS) (pyInt m)))
    ([], [])

/-- Model of `GenerateASN(v4, v6)` (oldScript.py lines 85–101): list all v4
keys, append each v6 key not already present, then sort ascending
(`ASNs.sort()`; `List.insertionSort` produces the same sorted list). -/
def GenerateASN (v4 v6 : List (ℤ × ℤ)) : List ℤ :=
  let a1 := v4.foldl (fun acc p => acc ++ [p.1]) []
  let a2 := v6.foldl (fun acc p => if p.1 ∈ acc then acc else acc ++ [p.1]) a1
  List.insertionSort (· ≤ ·) a2

/-- The inner dict of oldScript.py's `announcedv4`/`announcedv6`: keys
`pdbprefixes`, `v4GWprefixes`/`v6GWprefixes`, `multiplier`. -/
structure Annc where
  pdbpfx : Nat
  GWpfx : ℤ
  multiplier : ℚ
deriving DecidableEq

/-- Model of `GetPeeringDBData(ASNs)` (oldScript.py lines 124–143): one
registry lookup per listed ASN, in list order; build the v4 and v6
announcement dicts with headroom applied.  `registry a` abstracts the
PeeringDB `(info_prefixes4, info_prefixes6)` response for ASN `a`. -/
def GetPeeringDBData (ASNs : List ℤ) (registry : ℤ → Nat × Nat) :
    List (ℤ × Annc) × List (ℤ × Annc) :=
  (ASNs.map (fun a =>
     (a, ⟨(registry a).1, (AddHeadroom (registry a).1).1, (AddHeadroom (registry a).1).2⟩)),
   ASNs.map (fun a =>
     (a, ⟨(registry a).2, (AddHeadroom (registry a).2).1, (AddHeadroom (registry a).2).2⟩)))

/-- One row of oldScript.py's `v4table`/`v6table` (lists of dicts with keys
`ASN`, `configMax4`/`configMax6`, `prefixes`, `pdbprefixes`, `multiplier`,
`mismatch`). -/
structure Row where
  ASN : ℤ
  cfgMax : ℤ
  pfx : ℤ
  pdbpfx : Nat
  multiplier : ℚ
  mismatch : String
deriving DecidableEq

/-- Model of `findMismatch(cfgMax4, cfgMax6, annc4, annc6)` (oldScript.py
lines 146–202): for each announced ASN that is also configured, build a row
whose `mismatch` label is `'n/a'` when the headroom value is 0,
`'YES - reconfig'` when it exceeds the configured maximum,
`'YES - exception'` when it is below it, and `''` when they agree. -/
def findMismatch (cfgMax4 cfgMax6 : List (ℤ × ℤ))
    (annc4 annc6 : List (ℤ × Annc)) : List Row × List Row :=
  (annc4.filterMap (fun p =>
     match cfgMax4.lookup p.1 with
     | none => none
     | some cfg => some
       (Row.mk p.1 cfg p.2.GWpfx p.2.pdbpfx p.2.multiplier
         (if p.2.GWpfx = (0 : ℤ) then "n/a"
          else if cfg < p.2.GWpfx then "YES - reconfig"
          else if p.2.GWpfx < cfg then "YES - exception"
          else ""))),
   annc6.filterMap (fun p =>
     match cfgMax6.lookup p.1 with
     | none => none
     | some cfg => some
       (Row.mk p.1 cfg p.2.GWpfx p.2.pdbpfx p.2.multiplier
         (if p.2.GWpfx = (0 : ℤ) then "n/a"
          else if cfg < p.2.GWpfx then "YES - reconfig"
          else if p.2.GWpfx < cfg then "YES - exception"
          else ""))))

/-- The v4 half of `generateSetCommands` (oldScript.py lines 274–288) for
one result row: for a `'YES - reconfig'` row, scan the BGP stanza for the
inet group of the same ASN and emit the maximum and teardown-80 statements
(both with the `inet` keyword). -/
def v4RowCommands (bgpstanza : List BgpGroup) (item : Row) : List String :=
  if item.mismatch = "YES - reconfig" then
    bgpstanza.flatMap (fun group =>
      match group.family with
      | some (Family.inet _) =>
        if item.ASN = pyInt group.peerAS then
          ["set protocols bgp group " ++ group.name ++
             " family inet unicast prefix-limit maximum " ++ toString item.pfx,
           "set protocols bgp group " ++ group.name ++
             " family inet unicast prefix-limit teardown 80"]
        else []
      | _ => [])
  else []

/-- The v6 half of `generateSetCommands` (oldScript.py lines 289–303) for
one result row.  The maximum statement uses the `inet6` keyword, but the
teardown statement on line 300 of the source is written with the `inet`
keyword. -/
def v6RowCommands (bgpstanza : List BgpGroup) (item : Row) : List String :=
  if item.mismatch = "YES - reconfig" then
    bgpstanza.flatMap (fun group =>
      match group.family with
      | some (Family.inet6 _) =>
        if item.ASN = pyInt group.peerAS then
          ["set protocols bgp group " ++ group.name ++
             " family inet6 unicast prefix-limit maximum " ++ toString item.pfx,
           "set protocols bgp group " ++ group.name ++
             " family inet unicast prefix-limit teardown 80"]
        else []
      | _ => [])
  else []

/-- Model of `generateSetCommands(v4results, v6results, bgpstanza)`
(oldScript.py lines 259–312): the two ordered command sequences. -/
def generateSetCommands (v4results v6results : List Row)
    (bgpstanza : List BgpGroup) : List String × List String :=
  (v4results.flatMap (v4RowCommands bgpstanza),
   v6results.flatMap (v6RowCommands bgpstanza))

end OldScript

/-! ### Foundations: digit length and binary logarithms -/

theorem digitLenAux_fuel (f1 : Nat) : ∀ f2 n, n ≤ f1 → n ≤ f2 →
    digitLenAux f1 n = digitLenAux f2 n := by
  induction f1 with
  | zero =>
    intro f2 n h1 _
    interval_cases n
    cases f2 <;> simp [digitLenAux]
  | succ f ih =>
    intro f2 n h1 h2
    cases f2 with
    | zero =>
      interval_cases n
      simp [digitLenAux]
    | succ g =>
      simp only [digitLenAux]
      by_cases hn : n < 10
      · simp [hn]
      · simp only [hn, if_false]
        have hd : n / 10 ≤ f := by omega
        have hd2 : n / 10 ≤ g := by omega
        rw [ih g (n / 10) hd hd2]

theorem digitLen_rec (n : Nat) :
    digitLen n = if n < 10 then 1 else digitLen (n / 10) + 1 := by
  by_cases hn : n < 10
  · simp only [hn, if_true]
    unfold digitLen
    cases n with
    | zero => rfl
    | succ m => simp [digitLenAux, hn]
  · simp only [hn, if_false]
    unfold digitLen
    cases n with
    | zero => omega
    | succ m =>
      simp only [digitLenAux, hn, if_false]
      have : (m + 1) / 10 ≤ m := by omega
      exact congrArg (· + 1) (digitLenAux_fuel m ((m+1)/10) ((m+1)/10) this le_rfl)

theorem digitLen_pos (n : Nat) : 1 ≤ digitLen n := by
  rw [digitLen_rec]
  split <;> omega

theorem digitLen_lt_pow (n : Nat) : n < 10 ^ digitLen n := by
  induction n using Nat.strong_induction_on with
  | _ n ih =>
    rw [digitLen_rec]
    by_cases hn : n < 10
    · simp only [hn, if_true, pow_one]
    · simp only [hn, if_false]
      have h1 : n / 10 < n := Nat.div_lt_self (by omega) (by omega)
      have h2 := ih (n / 10) h1
      have h3 : n < 10 * (n / 10 + 1) := by omega
      calc n < 10 * (n / 10 + 1) := h3
        _ ≤ 10 * 10 ^ digitLen (n / 10) := by
            have : n / 10 + 1 ≤ 10 ^ digitLen (n / 10) := h2
            exact Nat.mul_le_mul_left 10 this
        _ = 10 ^ (digitLen (n / 10) + 1) := by ring

theorem log2floorAux_fuel (f1 : Nat) : ∀ f2 n, n ≤ f1 → n ≤ f2 →
    log2floorAux f1 n = log2floorAux f2 n := by
  induction f1 with
  | zero =>
    intro f2 n h1 _
    interval_cases n
    cases f2 <;> simp [log2floorAux]
  | succ f ih =>
    intro f2 n h1 h2
    cases f2 with
    | zero =>
      interval_cases n
      simp [log2floorAux]
    | succ g =>
      simp only [log2floorAux]
      by_cases hn : n < 2
      · simp [hn]
      · simp only [hn, if_false]
        have hd : n / 2 ≤ f := by omega
        have hd2 : n / 2 ≤ g := by omega
        rw [ih g (n / 2) hd hd2]

theorem log2floor_rec (n : Nat) :
    log2floor n = if n < 2 then 0 else log2floor (n / 2) + 1 := by
  by_cases hn : n < 2
  · unfold log2floor
    interval_cases n <;> simp [log2floorAux]
  · simp only [hn, if_false]
    unfold log2floor
    cases n with
    | zero => omega
    | succ m =>
      simp only [log2floorAux, hn, if_false]
      have : (m + 1) / 2 ≤ m := by omega
      exact congrArg (· + 1) (log2floorAux_fuel m ((m+1)/2) ((m+1)/2) this le_rfl)

theorem log2floor_bounds (n : Nat) (h : 1 ≤ n) :
    2 ^ log2floor n ≤ n ∧ n < 2 ^ (log2floor n + 1) := by
  revert h
  induction n using Nat.strong_induction_on with
  | _ n ih =>
    intro h
    rw [log2floor_rec]
    by_cases hn : n < 2
    · have hone : n = 1 := by omega
      subst hone
      norm_num
    · simp only [hn, if_false]
      have h1 : n / 2 < n := Nat.div_lt_self (by omega) (by omega)
      have h2 := ih (n / 2) h1 (by omega)
      constructor
      · calc 2 ^ (log2floor (n / 2) + 1) = 2 * 2 ^ log2floor (n / 2) := by ring
          _ ≤ 2 * (n / 2) := by omega
          _ ≤ n := by omega
      · calc n < 2 * (n / 2 + 1) := by omega
          _ ≤ 2 * 2 ^ (log2floor (n / 2) + 1) := by omega
          _ = 2 ^ (log2floor (n / 2) + 1 + 1) := by ring

theorem clog2Aux_fuel (f1 : Nat) : ∀ f2 n, n ≤ f1 → n ≤ f2 →
    clog2Aux f1 n = clog2Aux f2 n := by
  induction f1 with
  | zero =>
    intro f2 n h1 _
    interval_cases n
    cases f2 <;> simp [clog2Aux]
  | succ f ih =>
    intro f2 n h1 h2
    cases f2 with
    | zero =>
      interval_cases n
      simp [clog2Aux]
    | succ g =>
      simp only [clog2Aux]
      by_cases hn : n ≤ 1
      · simp [hn]
      · simp only [hn, if_false]
        have hd : (n + 1) / 2 ≤ f := by omega
        have hd2 : (n + 1) / 2 ≤ g := by omega
        rw [ih g ((n+1)/2) hd hd2]

theorem clog2_rec (n : Nat) :
    clog2 n = if n ≤ 1 then 0 else clog2 ((n + 1) / 2) + 1 := by
  by_cases hn : n ≤ 1
  · unfold clog2
    interval_cases n <;> simp [clog2Aux]
  · simp only [hn, if_false]
    unfold clog2
    cases n with
    | zero => omega
    | succ m =>
      simp only [clog2Aux, hn, if_false]
      have : (m + 1 + 1) / 2 ≤ m := by omega
      exact congrArg (· + 1) (clog2Aux_fuel m ((m+1+1)/2) ((m+1+1)/2) this le_rfl)

theorem clog2_bounds (n : Nat) (h : 1 ≤ n) :
    n ≤ 2 ^ clog2 n ∧ (clog2 n = 0 ∨ 2 ^ (clog2 n - 1) < n) := by
  revert h
  induction n using Nat.strong_induction_on with
  | _ n ih =>
    intro h
    rw [clog2_rec]
    by_cases hn : n ≤ 1
    · have hone : n = 1 := by omega
      subst hone
      norm_num
    · simp only [hn, if_false]
      have h1 : (n + 1) / 2 < n := by omega
      have h2 := ih ((n + 1) / 2) h1 (by omega)
      constructor
      · calc n ≤ 2 * ((n + 1) / 2) := by omega
          _ ≤ 2 * 2 ^ clog2 ((n + 1) / 2) := by omega
          _ = 2 ^ (clog2 ((n + 1) / 2) + 1) := by ring
      · right
        rcases h2.2 with hc | hc
        · rw [hc]
          norm_num
          omega
        · have hm : 2 ^ (clog2 ((n + 1) / 2) - 1) < (n + 1) / 2 := hc
          rcases Nat.eq_zero_or_pos (clog2 ((n + 1) / 2)) with hz | hpos
          · rw [hz]
            norm_num
            omega
          · have he : clog2 ((n + 1) / 2) + 1 - 1 = (clog2 ((n + 1) / 2) - 1) + 1 := by
              omega
            rw [he, pow_succ]
            omega

/-! ### Correctness of the binary64 rounding model -/

theorem q2pow_nat (k : ℕ) : (2 : ℚ) ^ (k : ℤ) = ((2 ^ k : ℕ) : ℚ) := by
  rw [zpow_natCast]
  push_cast
  ring

theorem q2pow_int (k : ℕ) : (2 : ℚ) ^ (k : ℤ) = ((2 ^ k : ℤ) : ℚ) := by
  rw [zpow_natCast]
  push_cast
  ring

theorem scale_eq (q : ℚ) (e : ℤ) : scale q e = q * (2 : ℚ) ^ e := by
  unfold scale
  split
  · rename_i h
    push_cast
    rw [← zpow_natCast (2 : ℚ) e.toNat, Int.toNat_of_nonneg h]
  · rename_i h
    push_cast
    rw [← zpow_natCast (2 : ℚ) (-e).toNat, Int.toNat_of_nonneg (by omega),
      div_eq_mul_inv, ← zpow_neg, neg_neg]

theorem qexp_bounds (q : ℚ) (hq : 0 < q) :
    (2 : ℚ) ^ qexp q ≤ q ∧ q < (2 : ℚ) ^ (qexp q + 1) := by
  unfold qexp
  split
  · rename_i h1
    have hm1 : 1 ≤ ⌊q⌋₊ := Nat.le_floor (by exact_mod_cast h1)
    obtain ⟨hl, hu⟩ := log2floor_bounds ⌊q⌋₊ hm1
    constructor
    · rw [q2pow_nat]
      calc ((2 ^ log2floor ⌊q⌋₊ : ℕ) : ℚ) ≤ (⌊q⌋₊ : ℚ) := by exact_mod_cast hl
        _ ≤ q := Nat.floor_le (le_of_lt hq)
    · have hm2 : ⌊q⌋₊ + 1 ≤ 2 ^ (log2floor ⌊q⌋₊ + 1) := hu
      have : ((log2floor ⌊q⌋₊ : ℤ) + 1) = ((log2floor ⌊q⌋₊ + 1 : ℕ) : ℤ) := by push_cast; ring
      rw [this, q2pow_nat]
      calc q < ⌊q⌋₊ + 1 := Nat.lt_floor_add_one q
        _ ≤ ((2 ^ (log2floor ⌊q⌋₊ + 1) : ℕ) : ℚ) := by exact_mod_cast hm2
  · rename_i h1
    have hq1 : q < 1 := lt_of_not_le h1
    have hinv1 : 1 < q⁻¹ := one_lt_inv_iff₀.mpr ⟨hq, hq1⟩
    have hm2 : 2 ≤ ⌈q⁻¹⌉₊ := by
      have : 1 < ⌈q⁻¹⌉₊ := Nat.lt_ceil.mpr (by exact_mod_cast hinv1)
      omega
    obtain ⟨hu, hl⟩ := clog2_bounds ⌈q⁻¹⌉₊ (by omega)
    have hstrict : 2 ^ (clog2 ⌈q⁻¹⌉₊ - 1) < ⌈q⁻¹⌉₊ := by
      rcases hl with hz | hs
    
      · rw [hz] at hu
        omega
      · exact hs
    constructor
    · rw [zpow_neg, q2pow_nat]
      have h4 : q⁻¹ ≤ ((2 ^ clog2 ⌈q⁻¹⌉₊ : ℕ) : ℚ) :=
        le_trans (Nat.le_ceil _) (by exact_mod_cast hu)
      have h5 := inv_anti₀ (inv_pos.mpr hq) h4
      rwa [inv_inv] at h5
    · have hc1 : 1 ≤ clog2 ⌈q⁻¹⌉₊ := by
        by_contra hz
        have : clog2 ⌈q⁻¹⌉₊ = 0 := by omega
        rw [this] at hu
        omega
      have hne : -(clog2 ⌈q⁻¹⌉₊ : ℤ) + 1 = -((clog2 ⌈q⁻¹⌉₊ - 1 : ℕ) : ℤ) := by
        push_cast [hc1]
        ring
      rw [hne, zpow_neg, q2pow_nat]
      have h5 : ((2 ^ (clog2 ⌈q⁻¹⌉₊ - 1) : ℕ) : ℚ) < q⁻¹ := by
        have ha : (⌈q⁻¹⌉₊ : ℚ) < q⁻¹ + 1 :=
          Nat.ceil_lt_add_one (le_of_lt (by positivity))
        have hb : ((2 ^ (clog2 ⌈q⁻¹⌉₊ - 1) : ℕ) : ℚ) + 1 ≤ (⌈q⁻¹⌉₊ : ℚ) := by
          exact_mod_cast hstrict
        linarith
      have h6 := inv_strictAnti₀ (by positivity) h5
      rwa [inv_inv] at h6

theorem roundHalfEven_def (q : ℚ) : roundHalfEven q =
    if q - (⌊q⌋ : ℚ) < 1/2 then ⌊q⌋
    else if 1/2 < q - (⌊q⌋ : ℚ) then ⌊q⌋ + 1
    else if ⌊q⌋ % 2 = 0 then ⌊q⌋ else ⌊q⌋ + 1 := rfl

theorem roundHalfEven_intCast (n : ℤ) : roundHalfEven (n : ℚ) = n := by
  rw [roundHalfEven_def]
  norm_num

theorem floor_le_roundHalfEven (q : ℚ) : ⌊q⌋ ≤ roundHalfEven q := by
  rw [roundHalfEven_def]
  split_ifs <;> omega

theorem roundHalfEven_le_floor_add_one (q : ℚ) : roundHalfEven q ≤ ⌊q⌋ + 1 := by
  rw [roundHalfEven_def]
  split_ifs <;> omega

theorem roundHalfEven_le_ceil (q : ℚ) : roundHalfEven q ≤ ⌈q⌉ := by
  have hfc : ⌊q⌋ ≤ ⌈q⌉ := Int.floor_le_ceil q
  rw [roundHalfEven_def]
  split_ifs with h1 h2 h3
  · exact hfc
  · have : (⌊q⌋ : ℚ) < q := by linarith
    have := Int.lt_ceil.mpr this
    omega
  · exact hfc
  · have : (⌊q⌋ : ℚ) < q := by linarith
    have := Int.lt_ceil.mpr this
    omega

theorem abs_roundHalfEven_sub (q : ℚ) : |(roundHalfEven q : ℚ) - q| ≤ 1/2 := by
  have h1 : (⌊q⌋ : ℚ) ≤ q := Int.floor_le q
  have h2 : q < (⌊q⌋ : ℚ) + 1 := Int.lt_floor_add_one q
  rw [roundHalfEven_def]
  split_ifs with ha hb hc <;>
    (rw [abs_le]; constructor <;> (push_cast; linarith))

theorem roundHalfEven_mono {a b : ℚ} (h : a ≤ b) :
    roundHalfEven a ≤ roundHalfEven b := by
  have hf : ⌊a⌋ ≤ ⌊b⌋ := Int.floor_le_floor h
  rcases eq_or_lt_of_le hf with hf | hf
  · have hab : a - (⌊a⌋ : ℚ) ≤ b - (⌊b⌋ : ℚ) := by
      rw [← hf]
      linarith
    rw [roundHalfEven_def, roundHalfEven_def, ← hf]
    split_ifs <;> first | omega | (exfalso; rw [← hf] at *; linarith)
  · calc roundHalfEven a ≤ ⌊a⌋ + 1 := roundHalfEven_le_floor_add_one a
      _ ≤ ⌊b⌋ := by omega
      _ ≤ roundHalfEven b := floor_le_roundHalfEven b

theorem roundPos_eq (q : ℚ) :
    roundPos q =
      (roundHalfEven (q * (2 : ℚ) ^ (-(qexp q - 52))) : ℚ) * (2 : ℚ) ^ (qexp q - 52) := by
  unfold roundPos
  rw [scale_eq, scale_eq]

theorem mantissa_bounds (q : ℚ) (hq : 0 < q) :
    (2 : ℚ) ^ (52 : ℤ) ≤ q * (2 : ℚ) ^ (-(qexp q - 52)) ∧
      q * (2 : ℚ) ^ (-(qexp q - 52)) < (2 : ℚ) ^ (53 : ℤ) := by
  obtain ⟨hl, hu⟩ := qexp_bounds q hq
  have hp : (0 : ℚ) < (2 : ℚ) ^ (-(qexp q - 52)) := zpow_pos (by norm_num) _
  constructor
  · have := mul_le_mul_of_nonneg_right hl (le_of_lt hp)
    calc (2 : ℚ) ^ (52 : ℤ) = (2 : ℚ) ^ qexp q * (2 : ℚ) ^ (-(qexp q - 52)) := by
          rw [← zpow_add₀ (by norm_num : (2:ℚ) ≠ 0)]
          ring_nf
      _ ≤ q * (2 : ℚ) ^ (-(qexp q - 52)) := this
  · have := mul_lt_mul_of_pos_right hu hp
    calc q * (2 : ℚ) ^ (-(qexp q - 52)) < (2 : ℚ) ^ (qexp q + 1) * (2 : ℚ) ^ (-(qexp q - 52)) := this
      _ = (2 : ℚ) ^ (53 : ℤ) := by
          rw [← zpow_add₀ (by norm_num : (2:ℚ) ≠ 0)]
          ring_nf

theorem mantissa_mul (q : ℚ) :
    q * (2 : ℚ) ^ (-(qexp q - 52)) * (2 : ℚ) ^ (qexp q - 52) = q := by
  rw [mul_assoc, ← zpow_add₀ (by norm_num : (2:ℚ) ≠ 0), neg_add_cancel, zpow_zero,
    mul_one]

theorem roundPos_err (q : ℚ) (_hq : 0 < q) :
    |roundPos q - q| ≤ (2 : ℚ) ^ (qexp q - 53) := by
  set x := q * (2 : ℚ) ^ (-(qexp q - 52)) with hx
  have hsub : roundPos q - q = ((roundHalfEven x : ℚ) - x) * (2 : ℚ) ^ (qexp q - 52) := by
    rw [roundPos_eq, ← hx, sub_mul]
    rw [← hx] at *
    rw [mantissa_mul]
  have hp : (0 : ℚ) < (2 : ℚ) ^ (qexp q - 52) := zpow_pos (by norm_num) _
  rw [hsub, abs_mul, abs_of_pos hp]
  calc |(roundHalfEven x : ℚ) - x| * (2 : ℚ) ^ (qexp q - 52)
      ≤ (1/2) * (2 : ℚ) ^ (qexp q - 52) :=
        mul_le_mul_of_nonneg_right (abs_roundHalfEven_sub x) (le_of_lt hp)
    _ = (2 : ℚ) ^ (qexp q - 53) := by
        rw [show qexp q - 53 = -1 + (qexp q - 52) by ring,
          zpow_add₀ (by norm_num : (2:ℚ) ≠ 0)]
        norm_num

theorem roundPos_lower (q : ℚ) (hq : 0 < q) :
    (2 : ℚ) ^ qexp q ≤ roundPos q := by
  set x := q * (2 : ℚ) ^ (-(qexp q - 52)) with hx
  obtain ⟨hlo, hhi⟩ := mantissa_bounds q hq
  rw [← hx] at hlo hhi
  have hfl : ((2 : ℤ) ^ (52 : ℕ)) ≤ roundHalfEven x := by
    refine le_trans ?_ (floor_le_roundHalfEven x)
    rw [Int.le_floor]
    calc (((2 : ℤ) ^ (52 : ℕ) : ℤ) : ℚ) = (2 : ℚ) ^ (52 : ℤ) := by norm_num
      _ ≤ x := hlo
  have hp : (0 : ℚ) < (2 : ℚ) ^ (qexp q - 52) := zpow_pos (by norm_num) _
  rw [roundPos_eq, ← hx]
  calc (2 : ℚ) ^ qexp q = (2 : ℚ) ^ (52 : ℤ) * (2 : ℚ) ^ (qexp q - 52) := by
        rw [← zpow_add₀ (by norm_num : (2:ℚ) ≠ 0)]
        ring_nf
    _ ≤ (roundHalfEven x : ℚ) * (2 : ℚ) ^ (qexp q - 52) := by
        apply mul_le_mul_of_nonneg_right _ (le_of_lt hp)
        calc (2 : ℚ) ^ (52 : ℤ) = (((2 : ℤ) ^ (52 : ℕ) : ℤ) : ℚ) := by norm_num
          _ ≤ (roundHalfEven x : ℚ) := by exact_mod_cast hfl

theorem roundPos_upper (q : ℚ) (hq : 0 < q) :
    roundPos q ≤ (2 : ℚ) ^ (qexp q + 1) := by
  set x := q * (2 : ℚ) ^ (-(qexp q - 52)) with hx
  obtain ⟨hlo, hhi⟩ := mantissa_bounds q hq
  rw [← hx] at hlo hhi
  have hcl : roundHalfEven x ≤ ((2 : ℤ) ^ (53 : ℕ)) := by
    refine le_trans (roundHalfEven_le_ceil x) ?_
    rw [Int.ceil_le]
    calc x ≤ (2 : ℚ) ^ (53 : ℤ) := le_of_lt hhi
      _ = (((2 : ℤ) ^ (53 : ℕ) : ℤ) : ℚ) := by norm_num
  have hp : (0 : ℚ) < (2 : ℚ) ^ (qexp q - 52) := zpow_pos (by norm_num) _
  rw [roundPos_eq, ← hx]
  calc (roundHalfEven x : ℚ) * (2 : ℚ) ^ (qexp q - 52)
      ≤ (2 : ℚ) ^ (53 : ℤ) * (2 : ℚ) ^ (qexp q - 52) := by
        apply mul_le_mul_of_nonneg_right _ (le_of_lt hp)
        calc (roundHalfEven x : ℚ) ≤ (((2 : ℤ) ^ (53 : ℕ) : ℤ) : ℚ) := by exact_mod_cast hcl
          _ = (2 : ℚ) ^ (53 : ℤ) := by norm_num
    _ = (2 : ℚ) ^ (qexp q + 1) := by
        rw [← zpow_add₀ (by norm_num : (2:ℚ) ≠ 0)]
        ring_nf

theorem roundPos_pos (q : ℚ) (hq : 0 < q) : 0 < roundPos q :=
  lt_of_lt_of_le (zpow_pos (by norm_num) _) (roundPos_lower q hq)

theorem qexp_le_qexp (a b : ℚ) (ha : 0 < a) (hab : a ≤ b) : qexp a ≤ qexp b := by
  have h1 := (qexp_bounds a ha).1
  have h2 := (qexp_bounds b (lt_of_lt_of_le ha hab)).2
  have h3 : (2 : ℚ) ^ qexp a < (2 : ℚ) ^ (qexp b + 1) := lt_of_le_of_lt (le_trans h1 hab) h2
  have h4 : qexp a < qexp b + 1 := by
    by_contra h5
    push_neg at h5
    exact absurd (zpow_le_zpow_right₀ (by norm_num : (1:ℚ) ≤ 2) h5) (not_le.mpr h3)
  omega

theorem roundPos_mono (a b : ℚ) (ha : 0 < a) (hab : a ≤ b) :
    roundPos a ≤ roundPos b := by
  have hb : 0 < b := lt_of_lt_of_le ha hab
  have hle := qexp_le_qexp a b ha hab
  rcases eq_or_lt_of_le hle with heq | hlt
  · rw [roundPos_eq, roundPos_eq, ← heq]
    have hp : (0 : ℚ) < (2 : ℚ) ^ (qexp a - 52) := zpow_pos (by norm_num) _
    apply mul_le_mul_of_nonneg_right _ (le_of_lt hp)
    have hx : a * (2 : ℚ) ^ (-(qexp a - 52)) ≤ b * (2 : ℚ) ^ (-(qexp a - 52)) :=
      mul_le_mul_of_nonneg_right hab (le_of_lt (zpow_pos (by norm_num) _))
    exact_mod_cast roundHalfEven_mono hx
  · calc roundPos a ≤ (2 : ℚ) ^ (qexp a + 1) := roundPos_upper a ha
      _ ≤ (2 : ℚ) ^ qexp b := zpow_le_zpow_right₀ (by norm_num) (by omega)
      _ ≤ roundPos b := roundPos_lower b hb

theorem roundQ_zero : roundQ 0 = 0 := by
  unfold roundQ
  norm_num

theorem roundQ_of_pos (q : ℚ) (hq : 0 < q) : roundQ q = roundPos q := by
  unfold roundQ
  rw [if_pos hq]

theorem roundQ_nonneg (q : ℚ) (hq : 0 ≤ q) : 0 ≤ roundQ q := by
  rcases eq_or_lt_of_le hq with h | h
  · rw [← h, roundQ_zero]
  · rw [roundQ_of_pos q h]
    exact le_of_lt (roundPos_pos q h)

theorem roundQ_mono (a b : ℚ) (ha : 0 ≤ a) (hab : a ≤ b) :
    roundQ a ≤ roundQ b := by
  rcases eq_or_lt_of_le ha with h | h
  · rw [← h, roundQ_zero]
    exact roundQ_nonneg b (le_trans ha hab)
  · rw [roundQ_of_pos a h, roundQ_of_pos b (lt_of_lt_of_le h hab)]
    exact roundPos_mono a b h hab

theorem roundQ_err (q : ℚ) (hq : 0 < q) : |roundQ q - q| ≤ q / 2 ^ (53 : ℕ) := by
  rw [roundQ_of_pos q hq]
  refine le_trans (roundPos_err q hq) ?_
  have h1 : (2 : ℚ) ^ (qexp q - 53) = (2 : ℚ) ^ qexp q * ((2 : ℚ) ^ (53 : ℕ))⁻¹ := by
    rw [show qexp q - 53 = qexp q + (-53) by ring, zpow_add₀ (by norm_num : (2:ℚ) ≠ 0),
      zpow_neg, ← zpow_natCast (2 : ℚ) 53]
    norm_num
  rw [h1, div_eq_mul_inv]
  apply mul_le_mul_of_nonneg_right (qexp_bounds q hq).1
  positivity

theorem roundQ_eq_self_of_int (q : ℚ) (hq : 0 < q) (m : ℤ)
    (hm : q * (2 : ℚ) ^ (-(qexp q - 52)) = (m : ℚ)) : roundQ q = q := by
  rw [roundQ_of_pos q hq, roundPos_eq, hm, roundHalfEven_intCast, ← hm, mantissa_mul]

theorem roundQ_natCast (n : ℕ) (h : n < 2 ^ 53) : roundQ (n : ℚ) = (n : ℚ) := by
  rcases Nat.eq_zero_or_pos n with h0 | h0
  · subst h0
    push_cast
    exact roundQ_zero
  · have hq : (0 : ℚ) < n := by exact_mod_cast h0
    apply roundQ_eq_self_of_int _ hq ((n * 2 ^ (52 - log2floor n) : ℕ) : ℤ)
    have hqe : qexp (n : ℚ) = (log2floor n : ℤ) := by
      unfold qexp
      rw [if_pos (by exact_mod_cast h0 : (1 : ℚ) ≤ (n : ℚ)), Nat.floor_natCast]
    have hl : log2floor n ≤ 52 := by
      have hb := (log2floor_bounds n h0).1
      have hlt : 2 ^ log2floor n < 2 ^ 53 := lt_of_le_of_lt hb h
      have := (Nat.pow_lt_pow_iff_right (by norm_num : 1 < 2)).mp hlt
      omega
    rw [hqe]
    have hexp : -((log2floor n : ℤ) - 52) = ((52 - log2floor n : ℕ) : ℤ) := by omega
    rw [hexp, q2pow_nat]
    push_cast
    ring

/-! ### Behaviour of the headroom calculator over its input ranges -/

theorem addHeadroom_fst (n : ℕ) :
    (AddHeadroom n).1 = ⌈pyMul (pyFloat n) (multiplierOf (digitLen n))⌉ := rfl

theorem addHeadroom_snd (n : ℕ) :
    (AddHeadroom n).2 = multiplierOf (digitLen n) := rfl

theorem pyMul_def (a b : ℚ) : pyMul a b = roundQ (a * b) := rfl

theorem pyFloat_def (n : ℕ) : pyFloat n = roundQ (n : ℚ) := rfl

theorem addHeadroom_ge (n : ℕ) (h : digitLen n ≤ 6) :
    (n : ℤ) ≤ (AddHeadroom n).1 := by
  have hd1 : 1 ≤ digitLen n := digitLen_pos n
  have hn6 : n < 10 ^ 6 :=
    lt_of_lt_of_le (digitLen_lt_pow n) (Nat.pow_le_pow_right (by norm_num) h)
  have h53 : n < 2 ^ 53 := by
    calc n < 10 ^ 6 := hn6
      _ ≤ 2 ^ 53 := by norm_num
  have hfl : pyFloat n = (n : ℚ) := roundQ_natCast n h53
  rw [addHeadroom_fst, hfl, pyMul_def]
  have hM : multiplierOf (digitLen n) = 1 ∨ (11 : ℚ)/10 ≤ multiplierOf (digitLen n) := by
    set d := digitLen n with hdd
    interval_cases d
    · right; decide
    · right; decide
    · right; decide
    · right; decide
    · right; decide
    · left; decide
  rcases hM with hM | hM
  · rw [hM, mul_one, roundQ_natCast n h53, Int.ceil_natCast]
  · rcases Nat.eq_zero_or_pos n with h0 | h0
    · subst h0
      push_cast
      rw [zero_mul, roundQ_zero]
      norm_num
    · have hnq : (0 : ℚ) < n := by exact_mod_cast h0
      have hn1 : (1 : ℚ) ≤ n := by exact_mod_cast h0
      set M := multiplierOf (digitLen n) with hMd
      have hMpos : (0 : ℚ) < M := lt_of_lt_of_le (by norm_num) hM
      have hx : (0 : ℚ) < (n : ℚ) * M := mul_pos hnq hMpos
      have herr := roundQ_err ((n : ℚ) * M) hx
      rw [abs_le] at herr
      have hlow : (n : ℚ) * M - (n : ℚ) * M / 2 ^ (53 : ℕ) ≤ roundQ ((n : ℚ) * M) := by
        linarith [herr.1]
      have hstep : (n : ℚ) < (n : ℚ) * M - (n : ℚ) * M / 2 ^ (53 : ℕ) := by
        have hc : (1 : ℚ) < (11/10) * (1 - 1/2 ^ (53 : ℕ)) := by norm_num
        have hxM : (n : ℚ) * (11/10) ≤ (n : ℚ) * M :=
          mul_le_mul_of_nonneg_left hM (le_of_lt hnq)
        have hfac : (0 : ℚ) < 1 - 1/2 ^ (53 : ℕ) := by norm_num
        have h1 : (n : ℚ) * M - (n : ℚ) * M / 2 ^ (53 : ℕ)
            = ((n : ℚ) * M) * (1 - 1/2 ^ (53 : ℕ)) := by ring
        have h2 : ((n : ℚ) * (11/10)) * (1 - 1/2 ^ (53 : ℕ))
            ≤ ((n : ℚ) * M) * (1 - 1/2 ^ (53 : ℕ)) :=
          mul_le_mul_of_nonneg_right hxM (le_of_lt hfac)
        have h3 : (n : ℚ) * 1 < (n : ℚ) * ((11/10) * (1 - 1/2 ^ (53 : ℕ))) :=
          (mul_lt_mul_left hnq).mpr hc
        rw [h1]
        calc (n : ℚ) = (n : ℚ) * 1 := by ring
          _ < (n : ℚ) * ((11/10) * (1 - 1/2 ^ (53 : ℕ))) := h3
          _ = ((n : ℚ) * (11/10)) * (1 - 1/2 ^ (53 : ℕ)) := by ring
          _ ≤ ((n : ℚ) * M) * (1 - 1/2 ^ (53 : ℕ)) := h2
      have hfin : (n : ℚ) ≤ roundQ ((n : ℚ) * M) := le_of_lt (lt_of_lt_of_le hstep hlow)
      calc (n : ℤ) = ⌈((n : ℕ) : ℚ)⌉ := by rw [Int.ceil_natCast]
        _ ≤ ⌈roundQ ((n : ℚ) * M)⌉ := Int.ceil_le_ceil hfin

theorem addHeadroom_mono (m n : ℕ) (hd : digitLen m = digitLen n)
    (h16 : digitLen n ≤ 16) (hmn : m ≤ n) :
    (AddHeadroom m).1 ≤ (AddHeadroom n).1 := by
  rw [addHeadroom_fst, addHeadroom_fst, hd]
  have hd1 : 1 ≤ digitLen n := digitLen_pos n
  have hM : (0 : ℚ) ≤ multiplierOf (digitLen n) := by
    set d := digitLen n with hdd
    interval_cases d <;> decide
  set M := multiplierOf (digitLen n) with hMd
  apply Int.ceil_le_ceil
  rw [pyMul_def, pyMul_def]
  have hm0 : (0 : ℚ) ≤ pyFloat m := roundQ_nonneg _ (by positivity)
  have hmono : pyFloat m ≤ pyFloat n :=
    roundQ_mono _ _ (by positivity) (by exact_mod_cast hmn)
  exact roundQ_mono _ _ (mul_nonneg hm0 hM)
    (mul_le_mul_of_nonneg_right hmono hM)

/-! ### Key structure of the dictionaries and the lookup sequence -/

theorem dictUpdate_keys (md : CheckMaxPrefixes.Masterdict) (k : String)
    (f : CheckMaxPrefixes.PeerEntry → CheckMaxPrefixes.PeerEntry) :
    (CheckMaxPrefixes.dictUpdate md k f).map Prod.fst =
      if k ∈ md.map Prod.fst then md.map Prod.fst else md.map Prod.fst ++ [k] := by
  induction md with
  | nil => simp [CheckMaxPrefixes.dictUpdate]
  | cons p rest ih =>
    obtain ⟨k0, e⟩ := p
    by_cases hk : k0 = k
    · subst hk
      simp [CheckMaxPrefixes.dictUpdate]
    · simp only [CheckMaxPrefixes.dictUpdate, hk, if_false, List.map_cons, ih]
      by_cases hmem : k ∈ rest.map Prod.fst
      · simp [hmem, Ne.symm hk]
      · simp [hmem, Ne.symm hk]

theorem dictUpdate_keys_nodup (md : CheckMaxPrefixes.Masterdict) (k : String)
    (f : CheckMaxPrefixes.PeerEntry → CheckMaxPrefixes.PeerEntry)
    (h : (md.map Prod.fst).Nodup) :
    ((CheckMaxPrefixes.dictUpdate md k f).map Prod.fst).Nodup := by
  rw [dictUpdate_keys]
  by_cases hmem : k ∈ md.map Prod.fst
  · simpa [hmem] using h
  · simp only [hmem, if_false]
    rw [List.nodup_append]
    refine ⟨h, List.nodup_singleton k, ?_⟩
    intro x hx hk
    rw [List.mem_singleton] at hk
    subst hk
    exact hmem hx

theorem configuredPeers_foldl_keys_nodup (groups : List BgpGroup) :
    ∀ md : CheckMaxPrefixes.Masterdict, (md.map Prod.fst).Nodup →
      ((groups.foldl
        (fun md peer =>
          match peer.family with
          | none => md
          | some (Family.inet m) =>
            CheckMaxPrefixes.dictUpdate md peer.peerAS
              (fun e => { e with v4groupname := some peer.name, v4configmax := some m })
          | some (Family.inet6 m) =>
            CheckMaxPrefixes.dictUpdate md peer.peerAS
              (fun e => { e with v6groupname := some peer.name, v6configmax := some m }))
        md).map Prod.fst).Nodup := by
  induction groups with
  | nil => intro md h; simpa using h
  | cons g rest ih =>
    intro md h
    simp only [List.foldl_cons]
    rcases hg : g.family with _ | fam
    · exact ih md h
    · rcases fam with m | m
      · exact ih _ (dictUpdate_keys_nodup md g.peerAS _ h)
      · exact ih _ (dictUpdate_keys_nodup md g.peerAS _ h)

theorem configuredPeers_keys_nodup (groups : List BgpGroup) :
    ((CheckMaxPrefixes.ConfiguredPeers groups).map Prod.fst).Nodup :=
  configuredPeers_foldl_keys_nodup groups [] (by simp)

theorem getPeeringDBData_keys (registry : String → Nat × Nat)
    (md : CheckMaxPrefixes.Masterdict) :
    (CheckMaxPrefixes.GetPeeringDBData registry md).map Prod.fst = md.map Prod.fst := by
  simp [CheckMaxPrefixes.GetPeeringDBData, List.map_map, Function.comp]

theorem generateASN_keys_foldl (l : List (ℤ × ℤ)) :
    ∀ acc : List ℤ, l.foldl (fun acc p => acc ++ [p.1]) acc = acc ++ l.map Prod.fst := by
  induction l with
  | nil => intro acc; simp
  | cons p rest ih =>
    intro acc
    simp only [List.foldl_cons, List.map_cons, ih]
    simp

theorem generateASN_dedup_foldl (l : List (ℤ × ℤ)) :
    ∀ acc : List ℤ, acc.Nodup →
      (l.foldl (fun acc p => if p.1 ∈ acc then acc else acc ++ [p.1]) acc).Nodup ∧
      ∀ x, x ∈ l.foldl (fun acc p => if p.1 ∈ acc then acc else acc ++ [p.1]) acc ↔
        x ∈ acc ∨ x ∈ l.map Prod.fst := by
  induction l with
  | nil => intro acc h; simpa using h
  | cons p rest ih =>
    intro acc hacc
    simp only [List.foldl_cons]
    by_cases hp : p.1 ∈ acc
    · simp only [hp, if_true]
      obtain ⟨h1, h2⟩ := ih acc hacc
      refine ⟨h1, fun x => ?_⟩
      rw [h2 x]
      simp only [List.map_cons, List.mem_cons]
      constructor
      · rintro (hx | hx)
        · exact Or.inl hx
        · exact Or.inr (Or.inr hx)
      · rintro (hx | hx | hx)
        · exact Or.inl hx
        · subst hx; exact Or.inl hp
        · exact Or.inr hx
    · simp only [hp, if_false]
      have hacc2 : (acc ++ [p.1]).Nodup := by
        rw [List.nodup_append]
        refine ⟨hacc, List.nodup_singleton _, ?_⟩
        intro x hx hk
        rw [List.mem_singleton] at hk
        subst hk
        exact hp hx
      obtain ⟨h1, h2⟩ := ih (acc ++ [p.1]) hacc2
      refine ⟨h1, fun x => ?_⟩
      rw [h2 x]
      simp only [List.mem_append, List.mem_singleton, List.map_cons, List.mem_cons]
      tauto

/-! ### The suppressed ad hoc table loops -/

theorem v4Rows_error (md : CheckMaxPrefixes.Masterdict)
    (h : ∃ p ∈ md, p.2.v4configmax.isSome) :
    CheckMaxPrefixes.v4Rows md true = Except.error "TypeError" := by
  induction md with
  | nil => simp at h
  | cons p rest ih =>
    obtain ⟨a, e⟩ := p
    rcases hc : e.v4configmax with _ | c
    · have hrest : ∃ p ∈ rest, p.2.v4configmax.isSome := by
        rcases h with ⟨q, hq, hq2⟩
        rcases List.mem_cons.mp hq with rfl | hq
        · rw [hc] at hq2; simp at hq2
        · exact ⟨q, hq, hq2⟩
      simpa [CheckMaxPrefixes.v4Rows, hc] using ih hrest
    · simp [CheckMaxPrefixes.v4Rows, hc, CheckMaxPrefixes.pyStrGetItem, Except.bind]

theorem v4Rows_ok (md : CheckMaxPrefixes.Masterdict)
    (h : ∀ p ∈ md, p.2.v4configmax = none) :
    CheckMaxPrefixes.v4Rows md true = Except.ok ([], [], false) := by
  induction md with
  | nil => rfl
  | cons p rest ih =>
    obtain ⟨a, e⟩ := p
    have hc : e.v4configmax = none := h (a, e) (List.mem_cons_self _ _)
    simpa [CheckMaxPrefixes.v4Rows, hc] using
      ih (fun q hq => h q (List.mem_cons_of_mem _ hq))

theorem v6Rows_error (md : CheckMaxPrefixes.Masterdict)
    (h : ∃ p ∈ md, p.2.v6configmax.isSome) :
    CheckMaxPrefixes.v6Rows md true = Except.error "TypeError" := by
  induction md with
  | nil => simp at h
  | cons p rest ih =>
    obtain ⟨a, e⟩ := p
    rcases hc : e.v6configmax with _ | c
    · have hrest : ∃ p ∈ rest, p.2.v6configmax.isSome := by
        rcases h with ⟨q, hq, hq2⟩
        rcases List.mem_cons.mp hq with rfl | hq
        · rw [hc] at hq2; simp at hq2
        · exact ⟨q, hq, hq2⟩
      simpa [CheckMaxPrefixes.v6Rows, hc] using ih hrest
    · simp [CheckMaxPrefixes.v6Rows, hc, CheckMaxPrefixes.pyStrGetItem, Except.bind]

/-! ### Claim theorems -/

/-- Claim C1 (code evidence at the failing input): for a v6
`MISMATCH - RECONFIGURE` entry with `headroomv6 = 260` and
`headroomv4 = 4800`, checkMaxPrefixes.py's change generator emits the v6
maximum statement with the value 4800 — the v4 headroom (line 296) — not
the result's own v6 recommended limit 260, contradicting the claim that
the maximum is set to that result's own recommendedLimit. -/
theorem claim_C1_v6_statement_uses_v4_headroom :
    CheckMaxPrefixes.generateSetCommands
      [("65501",
        { v6groupname := some "Qatar_v6", v6configmax := some "200",
          headroomv4 := some 4800, headroomv6 := some 260,
          v6status := some "MISMATCH - RECONFIGURE" })] =
      ([],
       ["set protocols bgp group Qatar_v6 family inet6 unicast prefix-limit maximum 4800",
        "set protocols bgp group Qatar_v6 family inet6 unicast prefix-limit teardown 80"]) ∧
    (4800 : ℤ) ≠ 260 := by
  decide

/-- Claim C2 (counterexample): `AddHeadroom(10250)` returns 11276 whereas
the claimed exact formula `ceil(10250 * ((6-5)/10 + 1)) = ceil(10250 * 1.1)`
is 11275 — the float evaluation of the multiplier exceeds 11/10, pushing
the product just above the integer 11275. -/
theorem claim_C2_counterexample :
    (AddHeadroom 10250).1 = 11276 ∧
    ⌈(10250 : ℚ) * ((6 - 5 : ℚ) / 10 + 1)⌉ = 11275 := by
  decide

/-- Claim C2 (amended): the headroom calculator returns the ceiling of the
binary64 evaluation of `reportedCount * multiplier`, with the multiplier
itself evaluated in binary64; all the spec's examples hold:
`AddHeadroom 0 = 0`, `AddHeadroom 9 = (14, 1.5)`,
`AddHeadroom 4000 = (4800, double nearest 1.2)`, and
`AddHeadroom 150000 = (150000, 1.0)`. -/
theorem claim_C2_float_semantics :
    (AddHeadroom 0).1 = 0 ∧ AddHeadroom 9 = (14, 3/2) ∧
    (AddHeadroom 4000).1 = 4800 ∧ (AddHeadroom 4000).2 = roundQ (12/10) ∧
    (AddHeadroom 150000).1 = 150000 ∧ (AddHeadroom 150000).2 = 1 := by
  decide

/-- Claim C5 (code evidence at the failing input): for a v6
`YES - reconfig` result, oldScript.py emits the maximum statement with the
`inet6` keyword but the teardown statement with the `inet` keyword
(line 300), contradicting the claim that both lines of the pair use the
result's own family keyword. -/
theorem claim_C5_oldscript_v6_teardown_keyword :
    OldScript.generateSetCommands []
        [OldScript.Row.mk 65501 200 260 200 1 "YES - reconfig"]
        [BgpGroup.mk "Qatar_v6" "65501" (some (Family.inet6 "200"))] =
      ([],
       ["set protocols bgp group Qatar_v6 family inet6 unicast prefix-limit maximum 260",
        "set protocols bgp group Qatar_v6 family inet unicast prefix-limit teardown 80"]) ∧
    "set protocols bgp group Qatar_v6 family inet unicast prefix-limit teardown 80" ≠
      "set protocols bgp group Qatar_v6 family inet6 unicast prefix-limit teardown 80" := by
  decide

/-- Claim C6 (code evidence at the failing input): a v6
`MISMATCH - RECONFIGURE` entry with configured limit 200, v6 headroom 260
and v4 headroom 0 makes checkMaxPrefixes.py emit a maximum statement with
value 0 — lowering the configured limit to zero — contradicting the claim
that every emitted maximum is strictly greater than the configured limit
and that the generator never lowers or zeroes a limit. -/
theorem claim_C6_lowers_v6_limit_to_zero :
    CheckMaxPrefixes.generateSetCommands
      [("65501",
        { v6groupname := some "Qatar_v6", v6configmax := some "200",
          headroomv4 := some 0, headroomv6 := some 260,
          v6status := some "MISMATCH - RECONFIGURE" })] =
      ([],
       ["set protocols bgp group Qatar_v6 family inet6 unicast prefix-limit maximum 0",
        "set protocols bgp group Qatar_v6 family inet6 unicast prefix-limit teardown 80"]) ∧
    (0 : ℤ) < pyInt "200" := by
  decide

/-- Claim C7 (counterexample): `AddHeadroom 1000000 = 900000 < 1000000`
(a 7-digit count gets multiplier 0.9), so `Headroom(n) ≥ n` fails; and for
the equal-digit-length 17-digit pair `10^16 ≤ 2·10^16` the computed limits
strictly decrease (the multiplier is negative), so monotonicity fails. -/
theorem claim_C7_counterexample :
    (AddHeadroom 1000000).1 = 900000 ∧ (900000 : ℤ) < 1000000 ∧
    digitLen 10000000000000000 = digitLen 20000000000000000 ∧
    (10000000000000000 : ℕ) ≤ 20000000000000000 ∧
    (AddHeadroom 20000000000000000).1 < (AddHeadroom 10000000000000000).1 := by
  decide

/-- Claim C7 (amended): for every reported count of at most 6 decimal
digits the computed limit is at least the count itself, and for counts of
equal digit-length of at most 16 digits (all digit lengths whose float
multiplier is non-negative) the computed limit is monotonically
non-decreasing. -/
theorem claim_C7_headroom_bounds :
    (∀ n : ℕ, digitLen n ≤ 6 → (n : ℤ) ≤ (AddHeadroom n).1) ∧
    (∀ m n : ℕ, digitLen m = digitLen n → digitLen n ≤ 16 → m ≤ n →
      (AddHeadroom m).1 ≤ (AddHeadroom n).1) :=
  ⟨addHeadroom_ge, addHeadroom_mono⟩

/-- Claim C7 witness: the amended theorem applied at concrete inputs. -/
theorem claim_C7_witness :
    (4000 : ℤ) ≤ (AddHeadroom 4000).1 ∧
    (AddHeadroom 200).1 ≤ (AddHeadroom 260).1 :=
  ⟨claim_C7_headroom_bounds.1 4000 (by decide),
   claim_C7_headroom_bounds.2 200 260 (by decide) (by decide) (by decide)⟩

/-- Claim C3: for every peer/family pair with a configured record and a
headroom (recommended-limit) value that is nonzero, the classifier of
checkMaxPrefixes.py assigns `MATCH` on equality, `MISMATCH - RECONFIGURE`
when the configured limit is strictly below the recommended one, and
`MISMATCH - EXCEPTION` when it is strictly above; oldScript.py's
classifier realises the same trichotomy with labels `''`,
`'YES - reconfig'` and `'YES - exception'`; in particular 4000 vs 4800 is
RECONFIGURE and 5000 vs 4800 is EXCEPTION. -/
theorem claim_C3_classifier_trichotomy :
    (∀ (md : CheckMaxPrefixes.Masterdict) (a : String)
        (e : CheckMaxPrefixes.PeerEntry) (s : String) (hr : ℤ),
      (a, e) ∈ md → e.v4configmax = some s → e.headroomv4 = some hr → hr ≠ 0 →
        (a, CheckMaxPrefixes.setStatuses e) ∈ CheckMaxPrefixes.findMismatch md ∧
        (CheckMaxPrefixes.setStatuses e).v4status = some
          (if pyInt s = hr then "MATCH"
           else if pyInt s < hr then "MISMATCH - RECONFIGURE"
           else "MISMATCH - EXCEPTION")) ∧
    (∀ (md : CheckMaxPrefixes.Masterdict) (a : String)
        (e : CheckMaxPrefixes.PeerEntry) (s : String) (hr : ℤ),
      (a, e) ∈ md → e.v6configmax = some s → e.headroomv6 = some hr → hr ≠ 0 →
        (a, CheckMaxPrefixes.setStatuses e) ∈ CheckMaxPrefixes.findMismatch md ∧
        (CheckMaxPrefixes.setStatuses e).v6status = some
          (if pyInt s = hr then "MATCH"
           else if pyInt s < hr then "MISMATCH - RECONFIGURE"
           else "MISMATCH - EXCEPTION")) ∧
    (∀ (cfg4 cfg6 : List (ℤ × ℤ)) (annc4 annc6 : List (ℤ × OldScript.Annc))
        (row : OldScript.Row),
      row ∈ (OldScript.findMismatch cfg4 cfg6 annc4 annc6).1 → row.pfx ≠ 0 →
        row.mismatch = (if row.cfgMax = row.pfx then ""
          else if row.cfgMax < row.pfx then "YES - reconfig"
          else "YES - exception")) ∧
    (∀ (cfg4 cfg6 : List (ℤ × ℤ)) (annc4 annc6 : List (ℤ × OldScript.Annc))
        (row : OldScript.Row),
      row ∈ (OldScript.findMismatch cfg4 cfg6 annc4 annc6).2 → row.pfx ≠ 0 →
        row.mismatch = (if row.cfgMax = row.pfx then ""
          else if row.cfgMax < row.pfx then "YES - reconfig"
          else "YES - exception")) ∧
    (CheckMaxPrefixes.statusOf 4000 4800 = "MISMATCH - RECONFIGURE" ∧
     CheckMaxPrefixes.statusOf 5000 4800 = "MISMATCH - EXCEPTION") := by
  refine ⟨?_, ?_, ?_, ?_, by decide⟩
  · intro md a e s hr hmem h4 hh _
    constructor
    · exact List.mem_map_of_mem _ hmem
    · simp only [CheckMaxPrefixes.setStatuses, CheckMaxPrefixes.statusOf, h4, hh]
      rcases hv6 : e.v6configmax with _ | c <;> simp [hv6]
  · intro md a e s hr hmem h6 hh _
    constructor
    · exact List.mem_map_of_mem _ hmem
    · simp only [CheckMaxPrefixes.setStatuses, CheckMaxPrefixes.statusOf, h6, hh]
      rcases hv4 : e.v4configmax with _ | c <;> simp [hv4, h6, hh]
  · intro cfg4 cfg6 annc4 annc6 row hmem hpfx
    rw [OldScript.findMismatch] at hmem
    simp only [List.mem_filterMap] at hmem
    obtain ⟨p, hp, heq⟩ := hmem
    rcases hl : cfg4.lookup p.1 with _ | cfg
    · rw [hl] at heq
      simp at heq
    · rw [hl] at heq
      simp only [Option.some_inj] at heq
      subst heq
      simp only at hpfx ⊢
      rw [if_neg hpfx]
      split_ifs <;> first | rfl | omega
  · intro cfg4 cfg6 annc4 annc6 row hmem hpfx
    rw [OldScript.findMismatch] at hmem
    simp only [List.mem_filterMap] at hmem
    obtain ⟨p, hp, heq⟩ := hmem
    rcases hl : cfg6.lookup p.1 with _ | cfg
    · rw [hl] at heq
      simp at heq
    · rw [hl] at heq
      simp only [Option.some_inj] at heq
      subst heq
      simp only at hpfx ⊢
      rw [if_neg hpfx]
      split_ifs <;> first | rfl | omega

/-- Claim C3 witness: the classifier theorem applied to a one-entry
dictionary with configured limit 4000 and recommended limit 4800. -/
theorem claim_C3_witness :
    ("65501", CheckMaxPrefixes.setStatuses
        { v4configmax := some "4000", headroomv4 := some 4800 }) ∈
      CheckMaxPrefixes.findMismatch
        [("65501", { v4configmax := some "4000", headroomv4 := some 4800 })] ∧
    (CheckMaxPrefixes.setStatuses
        { v4configmax := some "4000", headroomv4 := some 4800 }).v4status = some
      (if pyInt "4000" = 4800 then "MATCH"
       else if pyInt "4000" < 4800 then "MISMATCH - RECONFIGURE"
       else "MISMATCH - EXCEPTION") :=
  claim_C3_classifier_trichotomy.1
    [("65501", { v4configmax := some "4000", headroomv4 := some 4800 })]
    "65501" { v4configmax := some "4000", headroomv4 := some 4800 }
    "4000" 4800 (by decide) rfl rfl (by decide)

/-- Claim C4 (counterexample): with reported count 0 (headroom
`(AddHeadroom 0).1 = 0`) and configured limit 4000, checkMaxPrefixes.py's
classifier assigns `MISMATCH - EXCEPTION`, not an UNRATED disposition,
refuting the claim that a zero recommended limit always yields UNRATED. -/
theorem claim_C4_counterexample :
    CheckMaxPrefixes.findMismatch
        [("65501", { v4configmax := some "4000",
                     headroomv4 := some ((AddHeadroom 0).1) })] =
      [("65501", { v4configmax := some "4000", headroomv4 := some 0,
                   v4status := some "MISMATCH - EXCEPTION" })] ∧
    "MISMATCH - EXCEPTION" ≠ "n/a" := by
  decide

/-- Claim C4 (amended): in oldScript.py a zero recommended limit yields the
`'n/a'` (UNRATED) label for both families; in checkMaxPrefixes.py a zero
recommended limit yields `MATCH` when the configured limit is 0 and
`MISMATCH - EXCEPTION` otherwise — never `MISMATCH - RECONFIGURE`; and in
both scripts a pair whose label is not the reconfigure label contributes no
change statements. -/
theorem claim_C4_zero_recommended :
    (∀ (cfg4 cfg6 : List (ℤ × ℤ)) (annc4 annc6 : List (ℤ × OldScript.Annc))
        (row : OldScript.Row),
      row ∈ (OldScript.findMismatch cfg4 cfg6 annc4 annc6).1 → row.pfx = 0 →
        row.mismatch = "n/a") ∧
    (∀ (cfg4 cfg6 : List (ℤ × ℤ)) (annc4 annc6 : List (ℤ × OldScript.Annc))
        (row : OldScript.Row),
      row ∈ (OldScript.findMismatch cfg4 cfg6 annc4 annc6).2 → row.pfx = 0 →
        row.mismatch = "n/a") ∧
    (∀ c : ℤ, 0 ≤ c →
      CheckMaxPrefixes.statusOf c 0 =
        (if c = 0 then "MATCH" else "MISMATCH - EXCEPTION") ∧
      CheckMaxPrefixes.statusOf c 0 ≠ "MISMATCH - RECONFIGURE") ∧
    (∀ e : CheckMaxPrefixes.PeerEntry,
      e.v4status ≠ some "MISMATCH - RECONFIGURE" →
        CheckMaxPrefixes.entryV4Commands e = []) ∧
    (∀ e : CheckMaxPrefixes.PeerEntry,
      e.v6status ≠ some "MISMATCH - RECONFIGURE" →
        CheckMaxPrefixes.entryV6Commands e = []) ∧
    (∀ (st : List BgpGroup) (row : OldScript.Row),
      row.mismatch ≠ "YES - reconfig" →
        OldScript.v4RowCommands st row = [] ∧ OldScript.v6RowCommands st row = []) := by
  refine ⟨?_, ?_, ?_, ?_, ?_, ?_⟩
  · intro cfg4 cfg6 annc4 annc6 row hmem hpfx
    rw [OldScript.findMismatch] at hmem
    simp only [List.mem_filterMap] at hmem
    obtain ⟨p, hp, heq⟩ := hmem
    rcases hl : cfg4.lookup p.1 with _ | cfg
    · rw [hl] at heq
      simp at heq
    · rw [hl] at heq
      simp only [Option.some_inj] at heq
      subst heq
      simp only at hpfx ⊢
      rw [if_pos hpfx]
  · intro cfg4 cfg6 annc4 annc6 row hmem hpfx
    rw [OldScript.findMismatch] at hmem
    simp only [List.mem_filterMap] at hmem
    obtain ⟨p, hp, heq⟩ := hmem
    rcases hl : cfg6.lookup p.1 with _ | cfg
    · rw [hl] at heq
      simp at heq
    · rw [hl] at heq
      simp only [Option.some_inj] at heq
      subst heq
      simp only at hpfx ⊢
      rw [if_pos hpfx]
  · intro c hc
    unfold CheckMaxPrefixes.statusOf
    constructor
    · split_ifs <;> first | rfl | omega
    · split_ifs <;> first | omega | (intro h; simp at h)
  · intro e he
    unfold CheckMaxPrefixes.entryV4Commands
    rcases hc : e.v4configmax with _ | c
    · rfl
    · rw [if_neg he]
  · intro e he
    unfold CheckMaxPrefixes.entryV6Commands
    rcases hc : e.v6configmax with _ | c
    · rfl
    · rw [if_neg he]
  · intro st row hrow
    unfold OldScript.v4RowCommands OldScript.v6RowCommands
    rw [if_neg hrow, if_neg hrow]
    exact ⟨rfl, rfl⟩

/-- Claim C4 witness: the amended theorem applied at concrete inputs —
oldScript's row for a zero count is labelled `'n/a'`, checkMaxPrefixes
classifies configured 4000 against recommended 0 as an exception, and a
non-reconfigure entry contributes no commands. -/
theorem claim_C4_witness :
    (OldScript.Row.mk 65501 4000 0 0 (3/2) "n/a").mismatch = "n/a" ∧
    (CheckMaxPrefixes.statusOf 4000 0 =
        (if (4000 : ℤ) = 0 then "MATCH" else "MISMATCH - EXCEPTION") ∧
      CheckMaxPrefixes.statusOf 4000 0 ≠ "MISMATCH - RECONFIGURE") ∧
    CheckMaxPrefixes.entryV4Commands
      { v4configmax := some "4000", headroomv4 := some 0,
        v4status := some "MISMATCH - EXCEPTION" } = [] :=
  ⟨claim_C4_zero_recommended.1 [(65501, 4000)] [] [(65501, OldScript.Annc.mk 0 0 (3/2))] []
      (OldScript.Row.mk 65501 4000 0 0 (3/2) "n/a") (by decide) rfl,
   claim_C4_zero_recommended.2.2.1 4000 (by decide),
   claim_C4_zero_recommended.2.2.2.1 _ (by decide)⟩

/-- Claim C8 (counterexample): in checkMaxPrefixes.py the registry-lookup
sequence is the masterdict key sequence, which is device-configuration
(insertion) order, not ascending numeric order: a config listing peer
65502 before 65501 yields the lookup sequence `["65502", "65501"]`. -/
theorem claim_C8_counterexample :
    (CheckMaxPrefixes.ConfiguredPeers
        [BgpGroup.mk "AS2group" "65502" (some (Family.inet "100")),
         BgpGroup.mk "AS1group" "65501" (some (Family.inet "100"))]).map Prod.fst =
      ["65502", "65501"] ∧
    ¬ List.Sorted (· ≤ ·)
        ((CheckMaxPrefixes.ConfiguredPeers
            [BgpGroup.mk "AS2group" "65502" (some (Family.inet "100")),
             BgpGroup.mk "AS1group" "65501" (some (Family.inet "100"))]).map
          (fun p => pyInt p.1)) := by
  decide

/-- Claim C8 (amended): oldScript.py's `GenerateASN` produces a sorted,
duplicate-free sequence containing exactly the peer identities of either
family (a peer in both families appears once); in checkMaxPrefixes.py the
lookup sequence likewise contains each identity exactly once (the keys of
the masterdict are distinct and the registry stage preserves them), but in
insertion order rather than ascending numeric order. -/
theorem claim_C8_lookup_sequence :
    (∀ v4 v6 : List (ℤ × ℤ), (v4.map Prod.fst).Nodup →
      List.Sorted (· ≤ ·) (OldScript.GenerateASN v4 v6) ∧
      (OldScript.GenerateASN v4 v6).Nodup ∧
      (∀ x, x ∈ OldScript.GenerateASN v4 v6 ↔
        x ∈ v4.map Prod.fst ∨ x ∈ v6.map Prod.fst)) ∧
    (∀ groups : List BgpGroup,
      ((CheckMaxPrefixes.ConfiguredPeers groups).map Prod.fst).Nodup) ∧
    (∀ (registry : String → Nat × Nat) (md : CheckMaxPrefixes.Masterdict),
      (CheckMaxPrefixes.GetPeeringDBData registry md).map Prod.fst =
        md.map Prod.fst) := by
  refine ⟨?_, configuredPeers_keys_nodup, getPeeringDBData_keys⟩
  intro v4 v6 h4
  have hkeys : v4.foldl (fun acc p => acc ++ [p.1]) [] = v4.map Prod.fst := by
    simpa using generateASN_keys_foldl v4 []
  have hd := generateASN_dedup_foldl v6 (v4.map Prod.fst) h4
  unfold OldScript.GenerateASN
  rw [hkeys]
  refine ⟨List.sorted_insertionSort _ _, ?_, ?_⟩
  · exact (List.perm_insertionSort _ _).nodup_iff.mpr hd.1
  · intro x
    rw [(List.perm_insertionSort _ _).mem_iff]
    exact hd.2 x

/-- Claim C8 witness: the amended theorem applied at concrete inputs. -/
theorem claim_C8_witness :
    List.Sorted (· ≤ ·) (OldScript.GenerateASN [(65502, 10)] [(65501, 5)]) ∧
    ((CheckMaxPrefixes.ConfiguredPeers []).map Prod.fst).Nodup :=
  ⟨(claim_C8_lookup_sequence.1 [(65502, 10)] [(65501, 5)] (by decide)).1,
   claim_C8_lookup_sequence.2.1 []⟩

/-- Claim C9: after the registry-lookup stage of checkMaxPrefixes.py,
every entry of the masterdict carries the reported count, headroom value
and multiplier for both address families — in particular `headroomv4`,
the key the IPv6 change-statement branch reads, is present on every
looked-up peer. -/
theorem claim_C9_registry_fields :
    ∀ (registry : String → Nat × Nat) (md : CheckMaxPrefixes.Masterdict)
      (p : String × CheckMaxPrefixes.PeerEntry),
      p ∈ CheckMaxPrefixes.GetPeeringDBData registry md →
        p.2.pdbmax4.isSome ∧ p.2.headroomv4.isSome ∧ p.2.multiplierv4.isSome ∧
        p.2.pdbmax6.isSome ∧ p.2.headroomv6.isSome ∧ p.2.multiplierv6.isSome := by
  intro registry md p hp
  rw [CheckMaxPrefixes.GetPeeringDBData, List.mem_map] at hp
  obtain ⟨q, hq, hqe⟩ := hp
  subst hqe
  simp

/-- Claim C9 witness: the theorem applied to a one-peer dictionary with a
registry report of 4000 v4 and 200 v6 prefixes. -/
theorem claim_C9_witness :
    ({ pdbmax4 := some 4000, headroomv4 := some (AddHeadroom 4000).1,
       multiplierv4 := some (AddHeadroom 4000).2, pdbmax6 := some 200,
       headroomv6 := some (AddHeadroom 200).1,
       multiplierv6 := some (AddHeadroom 200).2 } :
        CheckMaxPrefixes.PeerEntry).pdbmax4.isSome ∧
    ({ pdbmax4 := some 4000, headroomv4 := some (AddHeadroom 4000).1,
       multiplierv4 := some (AddHeadroom 4000).2, pdbmax6 := some 200,
       headroomv6 := some (AddHeadroom 200).1,
       multiplierv6 := some (AddHeadroom 200).2 } :
        CheckMaxPrefixes.PeerEntry).headroomv4.isSome ∧
    ({ pdbmax4 := some 4000, headroomv4 := some (AddHeadroom 4000).1,
       multiplierv4 := some (AddHeadroom 4000).2, pdbmax6 := some 200,
       headroomv6 := some (AddHeadroom 200).1,
       multiplierv6 := some (AddHeadroom 200).2 } :
        CheckMaxPrefixes.PeerEntry).multiplierv4.isSome ∧
    ({ pdbmax4 := some 4000, headroomv4 := some (AddHeadroom 4000).1,
       multiplierv4 := some (AddHeadroom 4000).2, pdbmax6 := some 200,
       headroomv6 := some (AddHeadroom 200).1,
       multiplierv6 := some (AddHeadroom 200).2 } :
        CheckMaxPrefixes.PeerEntry).pdbmax6.isSome ∧
    ({ pdbmax4 := some 4000, headroomv4 := some (AddHeadroom 4000).1,
       multiplierv4 := some (AddHeadroom 4000).2, pdbmax6 := some 200,
       headroomv6 := some (AddHeadroom 200).1,
       multiplierv6 := some (AddHeadroom 200).2 } :
        CheckMaxPrefixes.PeerEntry).headroomv6.isSome ∧
    ({ pdbmax4 := some 4000, headroomv4 := some (AddHeadroom 4000).1,
       multiplierv4 := some (AddHeadroom 4000).2, pdbmax6 := some 200,
       headroomv6 := some (AddHeadroom 200).1,
       multiplierv6 := some (AddHeadroom 200).2 } :
        CheckMaxPrefixes.PeerEntry).multiplierv6.isSome :=
  claim_C9_registry_fields (fun _ => (4000, 200)) [("65501", {})]
    ("65501",
     { pdbmax4 := some 4000, headroomv4 := some (AddHeadroom 4000).1,
       multiplierv4 := some (AddHeadroom 4000).2, pdbmax6 := some 200,
       headroomv6 := some (AddHeadroom 200).1,
       multiplierv6 := some (AddHeadroom 200).2 })
    (by decide)

/-- Claim C10: with suppression enabled, checkMaxPrefixes.py's ad hoc
table aborts with a `TypeError` before printing anything whenever any
peer has a configured v4 or v6 limit (the `elif` branches subscript the
ASN string key), and the status strings the suppressed branches compare
against (`'YES - reconfig'`, `'YES - exception'`) are never produced by
this file's classifier. -/
theorem claim_C10_suppressed_table :
    (∀ md : CheckMaxPrefixes.Masterdict,
      (∃ p ∈ md, p.2.v4configmax.isSome ∨ p.2.v6configmax.isSome) →
        CheckMaxPrefixes.createTable md true = Except.error "TypeError") ∧
    (∀ cfg hr : ℤ,
      CheckMaxPrefixes.statusOf cfg hr ≠ "YES - reconfig" ∧
      CheckMaxPrefixes.statusOf cfg hr ≠ "YES - exception") := by
  constructor
  · intro md h
    by_cases h4 : ∃ p ∈ md, p.2.v4configmax.isSome
    · unfold CheckMaxPrefixes.createTable
      rw [v4Rows_error md h4]
      rfl
    · have hall : ∀ p ∈ md, p.2.v4configmax = none := by
        intro p hp
        rcases hx : p.2.v4configmax with _ | c
        · rfl
        · exact absurd ⟨p, hp, by rw [hx]; rfl⟩ h4
      have h6 : ∃ p ∈ md, p.2.v6configmax.isSome := by
        rcases h with ⟨p, hp, hc | hc⟩
        · rw [hall p hp] at hc
          simp at hc
        · exact ⟨p, hp, hc⟩
      unfold CheckMaxPrefixes.createTable
      rw [v4Rows_ok md hall, v6Rows_error md h6]
      rfl
  · intro cfg hr
    unfold CheckMaxPrefixes.statusOf
    split_ifs <;> exact ⟨by decide, by decide⟩

/-- Claim C10 witness: the theorem applied to a one-peer dictionary with a
configured v4 limit, and to the classifier at 4000 vs 4800. -/
theorem claim_C10_witness :
    CheckMaxPrefixes.createTable [("65501", { v4configmax := some "4000" })] true =
      Except.error "TypeError" ∧
    CheckMaxPrefixes.statusOf 4000 4800 ≠ "YES - reconfig" :=
  ⟨claim_C10_suppressed_table.1 [("65501", { v4configmax := some "4000" })] (by decide),
   (claim_C10_suppressed_table.2 4000 4800).1⟩
